import Mathlib

/-!
Shallow embedding of the two scripts of this repository,
`scripts/split_bible_kjv.py` and `scripts/export_bible_json.py`,
together with theorems settling the frozen claims about them.

Lines of text are modelled as `String` (a `List Char` underneath); the
Python regular expressions of the scripts are hand-translated into
deterministic matchers over `List Char` (each regex in the scripts is
anchored and literally sequential, so greedy scanning with no
backtracking computes the same match, as argued next to each matcher).
Python `IndexError` exceptions are modelled by `Except String`.
-/

namespace BibleScripts

/-- Python whitespace (`str.strip`, regex `\s`) restricted to the ASCII
whitespace characters. -/
def pyWs (c : Char) : Bool :=
  c == ' ' || c == '\t' || c == '\n' || c == '\r' || c == '\x0b' || c == '\x0c'

/-- `str.lstrip()` on a character list. -/
def lstripL (l : List Char) : List Char := l.dropWhile pyWs

/-- `str.rstrip()` on a character list. -/
def rstripL (l : List Char) : List Char := (l.reverse.dropWhile pyWs).reverse

/-- `str.strip()` on a character list. -/
def stripL (l : List Char) : List Char := lstripL (rstripL l)

/-- `str.strip()` on a string. -/
def stripS (s : String) : String := ⟨stripL s.data⟩

/-- `str.rstrip()` on a string. -/
def rstripS (s : String) : String := ⟨rstripL s.data⟩

/-- Numeric value of a decimal digit character. -/
def digitVal (c : Char) : Nat := c.toNat - 48

/-- Python `int` applied to a nonempty string of decimal digits.  (The
scripts' `int(raw.lstrip('0') or '0')` equals this: stripping leading
zeros does not change the numeric value.) -/
def natOfDigits (l : List Char) : Nat := l.foldl (fun acc c => acc * 10 + digitVal c) 0

/-- Greedy run of decimal digits and the remainder. -/
def spanDigits (l : List Char) : List Char × List Char :=
  (l.takeWhile Char.isDigit, l.dropWhile Char.isDigit)

/-- Greedy run of whitespace and the remainder. -/
def spanWs (l : List Char) : List Char × List Char :=
  (l.takeWhile pyWs, l.dropWhile pyWs)

/-- Case-insensitive match of a literal pattern at the start of `l`;
returns the remainder on success (`re.IGNORECASE` on ASCII letters). -/
def ciPrefixL : List Char → List Char → Option (List Char)
  | [], l => some l
  | _ :: _, [] => none
  | p :: ps, c :: cs => if p.toUpper == c.toUpper then ciPrefixL ps cs else none

/-- Does `pat` occur at the start of `l`? (`str.startswith`). -/
def startsWithL : List Char → List Char → Bool
  | [], _ => true
  | _ :: _, [] => false
  | p :: ps, c :: cs => p == c && startsWithL ps cs

/-- Python substring containment `pat in l`. -/
def containsSub (pat : List Char) : List Char → Bool
  | [] => pat.isEmpty
  | c :: cs => startsWithL pat (c :: cs) || containsSub pat cs

/-- `VERSE_COLON_RE = ^(\d+):(\d+)\s+(.*)$` (split script).
Greedy digit runs are exact here: a shorter run would leave a digit
where `:` or whitespace is required. -/
def matchVerseColon (l : List Char) : Option (Nat × Nat × List Char) :=
  let (d1, r1) := spanDigits l
  if d1 = [] then none else
  match r1 with
  | ':' :: r2 =>
    let (d2, r3) := spanDigits r2
    if d2 = [] then none else
    let (w, r4) := spanWs r3
    if w = [] then none else
    some (natOfDigits d1, natOfDigits d2, r4)
  | _ => none

/-- `VERSE_SIMPLE_RE = ^(\d+)\s+(.*)$` (split script); identical to
`VERSE_RE` of the export script. -/
def matchVerseSimple (l : List Char) : Option (Nat × List Char) :=
  let (d, r) := spanDigits l
  if d = [] then none else
  let (w, r2) := spanWs r
  if w = [] then none else
  some (natOfDigits d, r2)

/-- The `\s+(\d+)$` tail shared by the two chapter-heading regexes. -/
def chapterNumAfter (r : List Char) : Option Nat :=
  let (w, r2) := spanWs r
  if w = [] then none else
  let (d, r3) := spanDigits r2
  if d = [] then none else
  if r3 = [] then some (natOfDigits d) else none

/-- `CHAPTER_HEADING_RE = ^(?:CHAPTER|PSALM)\s+(\d+)$`, IGNORECASE
(split script). The alternatives start with distinct letters, so
first-alternative preference needs no backtracking. -/
def matchChapterHeading (l : List Char) : Option Nat :=
  match ciPrefixL "CHAPTER".data l with
  | some r => chapterNumAfter r
  | none =>
    match ciPrefixL "PSALM".data l with
    | some r => chapterNumAfter r
    | none => none

/-- `CHAPTER_RE = ^Chapter\s+(\d+)$`, IGNORECASE (export script; no
PSALM alternative). -/
def matchChapterRe (l : List Char) : Option Nat :=
  match ciPrefixL "CHAPTER".data l with
  | some r => chapterNumAfter r
  | none => none

/-- `BOOK_HEADING_RE = ^BOOK\s+(\d{1,2})\s+(.+)$`, IGNORECASE.  The
digit run must have length 1 or 2: with three or more digits both
quantifier choices leave a digit where whitespace is required. -/
def matchBookHeading (l : List Char) : Option (Nat × List Char) :=
  match ciPrefixL "BOOK".data l with
  | none => none
  | some r =>
    let (w, r2) := spanWs r
    if w = [] then none else
    let (d, r3) := spanDigits r2
    if d = [] ∨ 2 < d.length then none else
    let (w2, r4) := spanWs r3
    if w2 = [] then none else
    if r4 = [] then none else
    some (natOfDigits d, r4)

/-- `NUM_VERSE_RE = ^(\d{2}):(\d{3}):(\d{3})\s+(.*)$`.  Each fixed-width
digit group must consume an exact-length digit run: a longer run leaves
a digit where `:` or whitespace is required. -/
def matchNumVerse (l : List Char) : Option (Nat × Nat × Nat × List Char) :=
  let (d1, r1) := spanDigits l
  if d1.length ≠ 2 then none else
  match r1 with
  | ':' :: r2 =>
    let (d2, r3) := spanDigits r2
    if d2.length ≠ 3 then none else
    match r3 with
    | ':' :: r4 =>
      let (d3, r5) := spanDigits r4
      if d3.length ≠ 3 then none else
      let (w, r6) := spanWs r5
      if w = [] then none else
      some (natOfDigits d1, natOfDigits d2, natOfDigits d3, r6)
    | _ => none
  | _ => none

/-- Canonical KJV book order (66), `BOOKS` in both scripts. -/
def BOOKS : List String := [
  "Genesis","Exodus","Leviticus","Numbers","Deuteronomy","Joshua","Judges","Ruth",
  "1 Samuel","2 Samuel","1 Kings","2 Kings","1 Chronicles","2 Chronicles","Ezra","Nehemiah","Esther","Job",
  "Psalms","Proverbs","Ecclesiastes","Song of Solomon","Isaiah","Jeremiah","Lamentations","Ezekiel","Daniel",
  "Hosea","Joel","Amos","Obadiah","Jonah","Micah","Nahum","Habakkuk","Zephaniah","Haggai","Zechariah","Malachi",
  "Matthew","Mark","Luke","John","Acts","Romans","1 Corinthians","2 Corinthians","Galatians","Ephesians","Philippians","Colossians",
  "1 Thessalonians","2 Thessalonians","1 Timothy","2 Timothy","Titus","Philemon","Hebrews","James","1 Peter","2 Peter","1 John","2 John","3 John","Jude","Revelation"]

/-- `ALIASES` of the split script, in dict-literal (= canon) order;
`is_heading` iterates it in this order. -/
def ALIASES : List (String × List String) := [
  ("Genesis", ["GENESIS"]),
  ("Exodus", ["EXODUS"]),
  ("Leviticus", ["LEVITICUS"]),
  ("Numbers", ["NUMBERS"]),
  ("Deuteronomy", ["DEUTERONOMY"]),
  ("Joshua", ["JOSHUA"]),
  ("Judges", ["JUDGES"]),
  ("Ruth", ["RUTH"]),
  ("1 Samuel", ["1 SAMUEL", "FIRST BOOK OF SAMUEL"]),
  ("2 Samuel", ["2 SAMUEL", "SECOND BOOK OF SAMUEL"]),
  ("1 Kings", ["1 KINGS", "FIRST BOOK OF KINGS"]),
  ("2 Kings", ["2 KINGS", "SECOND BOOK OF KINGS"]),
  ("1 Chronicles", ["1 CHRONICLES", "FIRST BOOK OF CHRONICLES"]),
  ("2 Chronicles", ["2 CHRONICLES", "SECOND BOOK OF CHRONICLES"]),
  ("Ezra", ["EZRA"]),
  ("Nehemiah", ["NEHEMIAH"]),
  ("Esther", ["ESTHER"]),
  ("Job", ["JOB"]),
  ("Psalms", ["PSALM", "PSALMS"]),
  ("Proverbs", ["PROVERBS"]),
  ("Ecclesiastes", ["ECCLESIASTES"]),
  ("Song of Solomon", ["SONG OF SOLOMON", "CANTICLES"]),
  ("Isaiah", ["ISAIAH"]),
  ("Jeremiah", ["JEREMIAH"]),
  ("Lamentations", ["LAMENTATIONS"]),
  ("Ezekiel", ["EZEKIEL"]),
  ("Daniel", ["DANIEL"]),
  ("Hosea", ["HOSEA"]),
  ("Joel", ["JOEL"]),
  ("Amos", ["AMOS"]),
  ("Obadiah", ["OBADIAH"]),
  ("Jonah", ["JONAH"]),
  ("Micah", ["MICAH"]),
  ("Nahum", ["NAHUM"]),
  ("Habakkuk", ["HABAKKUK"]),
  ("Zephaniah", ["ZEPHANIAH"]),
  ("Haggai", ["HAGGAI"]),
  ("Zechariah", ["ZECHARIAH"]),
  ("Malachi", ["MALACHI"]),
  ("Matthew", ["MATTHEW"]),
  ("Mark", ["MARK"]),
  ("Luke", ["LUKE"]),
  ("John", ["JOHN"]),
  ("Acts", ["ACTS"]),
  ("Romans", ["ROMANS"]),
  ("1 Corinthians", ["1 CORINTHIANS", "FIRST EPISTLE OF PAUL THE APOSTLE TO THE CORINTHIANS"]),
  ("2 Corinthians", ["2 CORINTHIANS", "SECOND EPISTLE OF PAUL THE APOSTLE TO THE CORINTHIANS"]),
  ("Galatians", ["GALATIANS"]),
  ("Ephesians", ["EPHESIANS"]),
  ("Philippians", ["PHILIPPIANS"]),
  ("Colossians", ["COLOSSIANS"]),
  ("1 Thessalonians", ["1 THESSALONIANS", "FIRST EPISTLE TO THE THESSALONIANS"]),
  ("2 Thessalonians", ["2 THESSALONIANS", "SECOND EPISTLE TO THE THESSALONIANS"]),
  ("1 Timothy", ["1 TIMOTHY", "FIRST EPISTLE TO TIMOTHY"]),
  ("2 Timothy", ["2 TIMOTHY", "SECOND EPISTLE TO TIMOTHY"]),
  ("Titus", ["TITUS"]),
  ("Philemon", ["PHILEMON"]),
  ("Hebrews", ["HEBREWS"]),
  ("James", ["JAMES"]),
  ("1 Peter", ["1 PETER", "FIRST EPISTLE GENERAL OF PETER"]),
  ("2 Peter", ["2 PETER", "SECOND EPISTLE GENERAL OF PETER"]),
  ("1 John", ["1 JOHN", "FIRST EPISTLE GENERAL OF JOHN"]),
  ("2 John", ["2 JOHN", "SECOND EPISTLE OF JOHN"]),
  ("3 John", ["3 JOHN", "THIRD EPISTLE OF JOHN"]),
  ("Jude", ["JUDE"]),
  ("Revelation", ["REVELATION", "REVELATION OF ST. JOHN", "REVELATION OF ST. JOHN THE DIVINE"])]

/-- `str.upper()` (ASCII). -/
def upperS (l : List Char) : List Char := l.map Char.toUpper

/-- `str.lower()` (ASCII) on a string. -/
def lowerS (s : String) : String := ⟨s.data.map Char.toLower⟩

/-- The punctuation class of `re.sub(r"[\-:,.;'\"()]+", " ", upper)` in
`is_heading`. -/
def isHeadPunct (c : Char) : Bool :=
  c == '-' || c == ':' || c == ',' || c == '.' || c == ';' ||
  c == Char.ofNat 39 || c == Char.ofNat 34 || c == '(' || c == ')'

/-- Collapse every whitespace run to a single space (the flag records
whether the previous character was part of a run). -/
def collapseSpacesAux : List Char → Bool → List Char
  | [], _ => []
  | c :: cs, prevWs =>
    if pyWs c then
      if prevWs then collapseSpacesAux cs true else ' ' :: collapseSpacesAux cs true
    else c :: collapseSpacesAux cs false

/-- The `cleaned` variant built inside `is_heading`: punctuation runs
replaced by a space, whitespace runs collapsed, then stripped.
(Substituting each punctuation character by a space and collapsing all
whitespace runs afterwards yields the same string as the two-step
`re.sub` in the source, since every maximal punctuation-or-whitespace
run collapses to one space either way.) -/
def cleanedOf (upper : List Char) : List Char :=
  stripL (collapseSpacesAux (upper.map fun c => if isHeadPunct c then ' ' else c) false)

/-- `is_heading` of the split script: canonical book name if the line
appears to be a book heading. -/
def is_heading (line : String) : Option String :=
  let raw := stripL line.data
  if raw = [] then none
  else if (matchVerseColon raw).isSome || (matchVerseSimple raw).isSome then none
  else
    let upper := upperS raw
    let cleaned := cleanedOf upper
    let fromBookHeading :=
      match matchBookHeading raw with
      | some (_, namePart) =>
        BOOKS.find? (fun b => lowerS b = lowerS ⟨stripL namePart⟩)
      | none => none
    match fromBookHeading with
    | some b => some b
    | none =>
      ALIASES.findSome? (fun ca =>
        if ca.2.any (fun a => containsSub a.data upper || containsSub a.data cleaned)
        then some ca.1 else none)

/-- Replace the last element of a list by `f` of it (Python assignment
through a `[-1]` back-reference, or mutation of the last-appended
object). -/
def updLast (f : α → α) : List α → List α
  | [] => []
  | [a] => [f a]
  | a :: b :: rest => a :: updLast f (b :: rest)

/-- Replace the element at index `i` by `f` of it (Python in-place
mutation of a list/dict entry; out-of-range indices do not occur at the
call sites, where the index is that of an existing entry). -/
def updAt (f : α → α) : Nat → List α → List α
  | _, [] => []
  | 0, a :: rest => f a :: rest
  | n + 1, a :: rest => a :: updAt f n rest

/-- Python list indexing `l[i]` (possibly negative `i`), raising
`IndexError` out of range. -/
def pyIdx (i : Int) (n : Nat) : Except String Nat :=
  if 0 ≤ i ∧ i < (n : Int) then Except.ok i.toNat
  else if -(n : Int) ≤ i ∧ i < 0 then Except.ok ((n : Int) + i).toNat
  else Except.error "IndexError"

/-- A verse object of the export script (`{'number': .., 'text': ..}`). -/
structure Verse where
  number : Nat
  text : String
deriving Repr, DecidableEq

/-- A chapter object of the export script. -/
structure Chapter where
  number : Nat
  verses : List Verse
deriving Repr, DecidableEq

/-- A book object of the export script (`{'book', 'order', 'chapters'}`). -/
structure BookJSON where
  book : String
  order : Nat
  chapters : List Chapter
deriving Repr, DecidableEq

/-- `BOOK_INDEX.get(name, 0)` of the export script. -/
def bookOrderOf (name : String) : Nat :=
  match BOOKS.findIdx? (fun b => b = name) with
  | some i => i + 1
  | none => 0

/-! ### `parse_book_txt` (export script) -/

/-- Loop state of `parse_book_txt`: the chapters built so far, whether
`current_chapter` is set (it is never unset once set, and always
references the last chapter appended), and whether `last_verse` is set
(it always references the last verse of the last chapter). -/
structure PBState where
  chapters : List Chapter
  hasCurrent : Bool
  lastVerse : Bool
deriving Repr, DecidableEq

/-- Append a continuation fragment to the text of the last verse of the
last chapter (Python mutation through the `last_verse` back-reference,
which always aliases that verse). -/
def appendToLastVerseText (t : String) (cs : List Chapter) : List Chapter :=
  updLast (fun c => { c with verses := updLast (fun v => { v with text := v.text ++ " " ++ t }) c.verses }) cs

/-- The `if last_verse:` continuation tail of the `parse_book_txt` loop
body (`ln` is the already-stripped line). -/
def pbCont (s : PBState) (ln : String) : PBState :=
  if s.lastVerse then { s with chapters := appendToLastVerseText ln s.chapters }
  else s

/-- One iteration of the `parse_book_txt` loop. -/
def pbStep (s : PBState) (ln0 : String) : PBState :=
  let ln : String := stripS ln0
  if ln.data = [] then s else
  match matchChapterRe ln.data with
  | some n => { chapters := s.chapters ++ [⟨n, []⟩], hasCurrent := true, lastVerse := false }
  | none =>
    match matchVerseSimple ln.data with
    | some (v, t) =>
      if s.hasCurrent then
        { s with
          chapters := updLast (fun c => { c with verses := c.verses ++ [⟨v, ⟨stripL t⟩⟩] }) s.chapters,
          lastVerse := true }
      else pbCont s ln
    | none => pbCont s ln

/-- `parse_book_txt` of the export script, with the file replaced by its
stem and its list of lines. -/
def parse_book_txt (stem : String) (lines : List String) : BookJSON :=
  let book_name :=
    match BOOKS.find? (fun b => (⟨b.data.filter (fun c => ¬ c == ' ')⟩ : String) = stem) with
    | some b => b
    | none => stem
  let st := lines.foldl pbStep ⟨[], false, false⟩
  { book := book_name, order := bookOrderOf book_name, chapters := st.chapters }

/-! ### Format detectors -/

/-- Lines matching `NUM_VERSE_RE` (matched against the raw line in both
detectors). -/
def countNumVerse (lines : List String) : Nat :=
  lines.countP (fun ln => (matchNumVerse ln.data).isSome)

/-- Lines matching `BOOK_HEADING_RE`. -/
def countBookHeadings (lines : List String) : Nat :=
  lines.countP (fun ln => (matchBookHeading ln.data).isSome)

/-- `detect_numbered_format` of the export script (full count, then
compare with the two thresholds). -/
def detect_numbered_format (lines : List String) : Bool :=
  decide (200 < countNumVerse lines) && decide (30 < countBookHeadings lines)

/-- Loop of `detect_numbered_format` in the split script: running
counters, early `return True` as soon as both thresholds are exceeded. -/
def detectNumberedSplitAux : List String → Nat → Nat → Bool
  | [], _, _ => false
  | ln :: rest, v, b =>
    let v2 := if (matchNumVerse ln.data).isSome then v + 1 else v
    let b2 := if (matchBookHeading ln.data).isSome then b + 1 else b
    if 200 < v2 ∧ 30 < b2 then true else detectNumberedSplitAux rest v2 b2

/-- `detect_numbered_format` of the split script. -/
def detectNumberedSplit (lines : List String) : Bool :=
  detectNumberedSplitAux lines 0 0

/-! ### `parse_master_numbered` (export script) -/

/-- Loop state of `parse_master_numbered`.  Python's `current_book`
holds a canonical book NAME (or `None`); since the canon names are
pairwise distinct we represent it by its index into `BOOKS`, which is
also the key of the pre-seeded `books` dict (modelled as a list in
canon order, its fixed iteration/insertion order).  `last_verse`, when
set, always references the last verse of the last chapter of
`books[current_book]`, so a Bool suffices. -/
structure PMState where
  books : List BookJSON
  currentBook : Option Nat
  currentChap : Option Nat
  lastVerse : Bool
deriving Repr, DecidableEq

/-- `{ b: {'book': b, 'order': BOOK_INDEX[b], 'chapters': []} for b in BOOKS }`. -/
def initBooks : List BookJSON :=
  BOOKS.enum.map (fun p => { book := p.2, order := p.1 + 1, chapters := [] })

/-- Append one text fragment to the last verse of the last chapter
(continuation through the `last_verse` back-reference). -/
def appendContText (t : String) (b : BookJSON) : BookJSON :=
  { b with chapters := appendToLastVerseText t b.chapters }

/-- Open a new chapter object at the end of a book's chapter list. -/
def appendEmptyChapter (n : Nat) (b : BookJSON) : BookJSON :=
  { b with chapters := b.chapters ++ [⟨n, []⟩] }

/-- Append a verse object to the last (current) chapter of a book. -/
def appendVerseToLast (v : Nat) (t : String) (b : BookJSON) : BookJSON :=
  { b with chapters := updLast (fun c => { c with verses := c.verses ++ [⟨v, t⟩] }) b.chapters }

/-- One iteration of the `parse_master_numbered` loop.  `IndexError`
from `BOOKS[book_num-1]` is materialised by `pyIdx`; note the source
evaluates that index both in the comparison and in the assignment, so
the verse branch always resolves it. -/
def pmStep (s : PMState) (ln0 : String) : Except String PMState :=
  let ln : String := rstripS ln0
  if stripL ln.data = [] then Except.ok s else
  match matchBookHeading (stripL ln.data) with
  | some (num, namePartRaw) =>
    let nameS : String := ⟨stripL namePartRaw⟩
    let byName := BOOKS.findIdx? (fun b => lowerS b = lowerS nameS)
    let mtch :=
      match byName with
      | some i => some i
      | none => if 1 ≤ num ∧ num ≤ BOOKS.length then some (num - 1) else none
    Except.ok { s with currentBook := mtch, currentChap := none, lastVerse := false }
  | none =>
    match matchNumVerse ln.data with
    | some (bookNum, chapter, verse, textRaw) => do
      let text : String := ⟨stripL textRaw⟩
      let idx ← pyIdx ((bookNum : Int) - 1) BOOKS.length
      let s1 := if s.currentBook ≠ some idx then
          { s with currentBook := some idx, currentChap := none, lastVerse := false }
        else s
      let s2 := if s1.currentChap ≠ some chapter then
          { s1 with books := updAt (appendEmptyChapter chapter) idx s1.books,
                    currentChap := some chapter, lastVerse := false }
        else s1
      Except.ok { s2 with books := updAt (appendVerseToLast verse text) idx s2.books,
                          lastVerse := true }
    | none =>
      Except.ok <|
        if s.lastVerse then
          match s.currentBook with
          | some i => { s with books := updAt (appendContText ⟨stripL ln.data⟩) i s.books }
          | none => s
        else s

/-- `parse_master_numbered` of the export script, final empty-chapter
trim included. -/
def parse_master_numbered (lines : List String) : Except String (List BookJSON) := do
  let s ← lines.foldlM pmStep
    { books := initBooks, currentBook := none, currentChap := none, lastVerse := false }
  return s.books.map (fun b => { b with chapters := b.chapters.filter (fun c => !c.verses.isEmpty) })

/-! ### `parse_numbered_format` (split script) -/

/-- Loop state of `parse_numbered_format` in the split script.  The
dict `books_content` (pre-seeded with all 66 canon names, insertion
order = canon order) is a list of name/lines pairs; `current_book`
(a canonical name or `None`) is represented by its canon index;
`last_verse_line_index` is a (book index, line index) pair.  The
source's `last_chapter` variable is write-only and omitted. -/
structure PNState where
  books : List (String × List String)
  currentBook : Option Nat
  currentChapter : Option Nat
  lastIdx : Option (Nat × Nat)
deriving Repr, DecidableEq

/-- Length of the line list of book `i` (0 when out of range, which
does not occur at the call site). -/
def pnLenAt (bs : List (String × List String)) (i : Nat) : Nat :=
  ((bs.get? i).map (fun p => p.2.length)).getD 0

/-- One iteration of the `parse_numbered_format` loop.  In the verse
branch the source indexes `BOOKS[book_num - 1]` only inside the guarded
condition and in the switch body, so `IndexError` can arise only when a
switch is required. -/
def pnStep (s : PNState) (ln0 : String) : Except String PNState :=
  let t : List Char := stripL ln0.data
  if t = [] then Except.ok s else
  match matchBookHeading t with
  | some (num, namePartRaw) =>
    let nameS : String := ⟨stripL namePartRaw⟩
    let byName := BOOKS.findIdx? (fun b => lowerS b = lowerS nameS)
    let mtch :=
      match byName with
      | some i => some i
      | none => if 1 ≤ num ∧ num ≤ BOOKS.length then some (num - 1) else none
    Except.ok { s with currentBook := mtch, currentChapter := none, lastIdx := none }
  | none =>
    match matchNumVerse t with
    | some (bookNum, chapter, verse, textRaw) => do
      let text : String := ⟨stripL textRaw⟩
      let needSwitch :=
        s.currentBook = none ∨
          (1 ≤ bookNum ∧ bookNum ≤ BOOKS.length ∧ s.currentBook ≠ some (bookNum - 1))
      let s1 ← if needSwitch then do
          let i ← pyIdx ((bookNum : Int) - 1) BOOKS.length
          pure { s with currentBook := some i, currentChapter := none, lastIdx := none }
        else pure s
      match s1.currentBook with
      | none => Except.ok s1
      | some cur =>
        let s2 := if s1.currentChapter ≠ some chapter then
            { s1 with books := updAt (fun p => (p.1, p.2 ++ ["Chapter " ++ toString chapter])) cur s1.books,
                      currentChapter := some chapter }
          else s1
        let s3 := { s2 with books := updAt (fun p => (p.1, p.2 ++ [toString verse ++ " " ++ text])) cur s2.books }
        Except.ok { s3 with lastIdx := some (cur, pnLenAt s3.books cur - 1) }
    | none =>
      Except.ok <|
        match s.lastIdx with
        | some bi =>
          { s with books := updAt (fun p => (p.1, updAt (fun item => item ++ " " ++ (⟨t⟩ : String)) bi.2 p.2)) bi.1 s.books }
        | none => s

/-- `parse_numbered_format` of the split script, final per-book
strip-and-drop-blank pass included. -/
def parse_numbered_format (lines : List String) : Except String (List (String × List String)) := do
  let s ← lines.foldlM pnStep
    { books := BOOKS.map (fun b => (b, [])), currentBook := none, currentChapter := none, lastIdx := none }
  return s.books.map (fun p => (p.1, (p.2.map stripS).filter (fun t2 => t2 ≠ "")))

/-! ### `split_books` (split script) -/

/-- Loop state of `split_books`: the content dict in insertion order,
the current canonical book name, and the heading buffer. -/
structure SBState where
  dict : List (String × List String)
  current : Option String
  buffer : List String
deriving Repr, DecidableEq

/-- `dict.setdefault(k, [])`. -/
def dictSetdefault (d : List (String × List String)) (k : String) : List (String × List String) :=
  if d.any (fun p => p.1 == k) then d else d ++ [(k, [])]

/-- Append `v` to the entry of key `k` (present at every call site). -/
def dictAppend (d : List (String × List String)) (k : String) (v : String) : List (String × List String) :=
  d.map (fun p => if p.1 == k then (p.1, p.2 ++ [v]) else p)

/-- `line.rstrip("\n")` (strips newline characters only). -/
def rstripNlS (s : String) : String := ⟨(s.data.reverse.dropWhile (fun c => c == '\n')).reverse⟩

/-- One iteration of the heading-based `split_books` loop. -/
def sbStep (s : SBState) (line : String) : SBState :=
  match is_heading line with
  | some b =>
    if s.current ≠ some b then
      { dict := dictSetdefault s.dict b, current := some b, buffer := [line] }
    else if s.buffer ≠ [] then { s with buffer := s.buffer ++ [line] }
    else { s with buffer := [], dict := dictAppend s.dict b (rstripNlS line) }
  | none =>
    match s.current with
    | none => s
    | some cur => { s with buffer := [], dict := dictAppend s.dict cur (rstripNlS line) }

/-- `split_books` of the split script: numbered-format delegation, else
the heading-based fold. -/
def split_books (lines : List String) : Except String (List (String × List String)) :=
  if detectNumberedSplit lines then parse_numbered_format lines
  else Except.ok (lines.foldl sbStep { dict := [], current := none, buffer := [] }).dict

/-- `books_content.get(book, [])`, as used by the split script's main
loop to feed `clean_book_lines`. -/
def dictGetD (d : List (String × List String)) (k : String) : List String :=
  ((d.find? (fun p => p.1 == k)).map (fun p => p.2)).getD []

/-! ### `clean_book_lines` (split script) -/

/-- Loop state of `clean_book_lines`. -/
structure CleanState where
  normalized : List String
  currentChapter : Option Nat
  lastVerseInChapter : Option Nat
deriving Repr, DecidableEq

/-- `start_chapter` of `clean_book_lines`. -/
def startChapter (s : CleanState) (ch : Nat) : CleanState :=
  { normalized := s.normalized ++ ["Chapter " ++ toString ch],
    currentChapter := some ch, lastVerseInChapter := none }

/-- Last element of the normalized list (`normalized[-1]`; used only
when nonempty). -/
def lastStr (l : List String) : String := l.getLastD ""

/-- One iteration of the `clean_book_lines` normalization loop.  The
source's inferred chapter `(current_chapter or 0) + 1` equals
`current_chapter + 1` both when the current chapter is nonzero and when
it is zero. -/
def cleanStep (s : CleanState) (ln : String) : CleanState :=
  let raw : String := stripS ln
  if raw.data = [] then s else
  match matchChapterHeading raw.data with
  | some n => startChapter s n
  | none =>
  match matchVerseColon raw.data with
  | some (ch, v, textRaw) =>
    let text : String := ⟨stripL textRaw⟩
    let s1 := if s.currentChapter ≠ some ch then startChapter s ch else s
    { s1 with normalized := s1.normalized ++ [toString v ++ " " ++ text], lastVerseInChapter := some v }
  | none =>
  match matchVerseSimple raw.data with
  | some (v, textRaw) =>
    let text : String := ⟨stripL textRaw⟩
    let s1 :=
      if s.currentChapter = none then startChapter s 1
      else if v = 1 ∧ 1 < s.lastVerseInChapter.getD 0 then
        startChapter s (s.currentChapter.getD 0 + 1)
      else s
    { s1 with normalized := s1.normalized ++ [toString v ++ " " ++ text], lastVerseInChapter := some v }
  | none =>
    if s.normalized ≠ [] ∧ ¬ startsWithL "Chapter ".data (lastStr s.normalized).data then
      { s with normalized := updLast (fun x => x ++ " " ++ raw) s.normalized }
    else
      let s1 := if s.currentChapter = none then startChapter s 1 else s
      { s1 with normalized := s1.normalized ++ [raw] }

/-- `clean_book_lines` of the split script (the `book` parameter is
unused in the source as well: headings are re-detected per line). -/
def clean_book_lines (book : String) (lines : List String) : List String :=
  let filtered := (lines.filter (fun ln => (is_heading ln).isNone)).map rstripS
  let filtered2 := filtered.dropWhile (fun l => stripL l.data = [])
  let filtered3 := (filtered2.reverse.dropWhile (fun l => stripL l.data = [])).reverse
  (filtered3.foldl cleanStep { normalized := [], currentChapter := none, lastVerseInChapter := none }).normalized

/-! ### Upload sink (export script)

The HTTP call `requests.post` is an external collaborator; it is
modelled as a function argument returning either a response or a raised
network error (`Except.error`).  `upload_book` has no exception
handler, so a raised error propagates; the per-book `print` reports are
returned as strings. -/

/-- An HTTP response as seen by `upload_book`. -/
structure HttpResponse where
  status_code : Nat
  text : String
deriving Repr, DecidableEq

/-- The JSON payload built by `upload_book` (chapter/verse lists are
rebuilt field by field from the book, i.e. copied as-is). -/
structure UploadPayload where
  tradition : String
  source : String
  work : String
  title : String
  chapters : List Chapter
deriving Repr, DecidableEq

/-- The payload dict literal of `upload_book`. -/
def buildPayload (book : BookJSON) (tradition src work : String) : UploadPayload :=
  { tradition := tradition, source := src, work := work, title := book.book,
    chapters := book.chapters.map (fun ch =>
      { number := ch.number, verses := ch.verses.map (fun v => { number := v.number, text := v.text }) }) }

/-- The headers dict of `upload_book`. -/
def uploadHeaders (pw : String) : List (String × String) :=
  [("Content-Type", "application/json"), ("x-upload-password", pw)]

/-- `upload_book`: posts the payload and returns the per-book report
line; a network error raised by the post propagates (no handler). -/
def upload_book
    (post : String → List (String × String) → UploadPayload → Except String HttpResponse)
    (book : BookJSON) (api_url pw tradition src work : String) : Except String String := do
  let payload := buildPayload book tradition src work
  let r ← post api_url (uploadHeaders pw) payload
  if 300 ≤ r.status_code then
    return "Upload failed " ++ book.book ++ ": " ++ toString r.status_code ++ " " ++ r.text
  else
    return "Uploaded " ++ book.book ++ ": " ++ toString r.status_code

/-- The upload portion of the export script's `main` loop: books are
uploaded one at a time in order; an error raised by one upload
propagates and aborts the remaining iterations (Python `for` loop with
no exception handler). -/
def uploadAll
    (post : String → List (String × String) → UploadPayload → Except String HttpResponse)
    (books : List BookJSON) (api_url pw tradition src work : String) : Except String (List String) :=
  books.foldlM (fun logs b => do
    let l ← upload_book post b api_url pw tradition src work
    return logs ++ [l]) []

/-! ### Auxiliary definitions for concrete instances -/

/-- A line that reaches rule 4 of the Chapter/Verse Normalizer: not
blank, not a chapter heading, not a colon verse, matching the simple
verse pattern; yields the verse number and stripped text. -/
def bareVerseLine (ln : String) : Option (Nat × String) :=
  let raw := stripS ln
  if raw.data = [] then none
  else if (matchChapterHeading raw.data).isSome then none
  else if (matchVerseColon raw.data).isSome then none
  else (matchVerseSimple raw.data).map (fun p => (p.1, (⟨stripL p.2⟩ : String)))

/-- The report line `upload_book` produces for a book under a given
post function (meaningful when the post returns a response). -/
def logOfPost
    (post : String → List (String × String) → UploadPayload → Except String HttpResponse)
    (api_url pw tradition src work : String) (b : BookJSON) : String :=
  match post api_url (uploadHeaders pw) (buildPayload b tradition src work) with
  | Except.ok r =>
    if 300 ≤ r.status_code then
      "Upload failed " ++ b.book ++ ": " ++ toString r.status_code ++ " " ++ r.text
    else "Uploaded " ++ b.book ++ ": " ++ toString r.status_code
  | Except.error _ => ""

/-- Input with exactly 5 numbered-verse lines and 2 BOOK headings (for
C4's boundary example). -/
def demoDetectLines : List String :=
  ["BOOK 01 Genesis",
   "01:001:001 In the beginning God created the heaven and the earth.",
   "01:001:002 And the earth was without form, and void.",
   "01:001:003 And God said, Let there be light: and there was light.",
   "01:001:004 And God saw the light, that it was good.",
   "01:001:005 And God called the light Day.",
   "BOOK 02 Exodus"]

/-- The name/order key of a book record (the fields `parse_master_numbered`
never modifies after initialisation). -/
def bkey (b : BookJSON) : String × Nat := (b.book, b.order)

/-- The chapter list of the book at canon index `i`. -/
def chaptersAt (bs : List BookJSON) (i : Nat) : Option (List Chapter) :=
  (bs.get? i).map (fun b => b.chapters)

/-- Does this line place a verse into the book at canon index `i` under
`parse_master_numbered`?  (Its verse branch matches `NUM_VERSE_RE`
against the rstripped line and resolves `BOOKS[book_num - 1]` with
Python index semantics.) -/
def mentionsIdx (i : Nat) (ln : String) : Bool :=
  match matchNumVerse (rstripL ln.data) with
  | some q =>
    match pyIdx ((q.1 : Int) - 1) BOOKS.length with
    | Except.ok j => j == i
    | Except.error _ => false
  | none => false

/-- A two-line numbered master input (for the C6 witness). -/
def demoNumLines : List String := ["BOOK 01 Genesis", "01:001:001 In the beginning"]

/-- The parse result of `demoNumLines` (it succeeds, as the witness
certifies). -/
def demoNumResult : List BookJSON := ((parse_master_numbered demoNumLines).toOption).getD []

/-- The canonical chapter marker emitted by the normalizer. -/
def chapterLineOf (n : Nat) : String := "Chapter " ++ toString n

/-- The canonical verse line emitted by the normalizer. -/
def verseLineOf (v : Nat) (t : String) : String := toString v ++ " " ++ t

/-- Per-line sanity conditions of the normalized form: nonempty, free
of leading/trailing whitespace, and not detected as a heading — so the
normalizer's filter, rstrip and blank-trim stages leave the line
untouched. -/
def normLineBasic (ln : String) : Bool :=
  decide (ln.data ≠ []) && decide (rstripL ln.data = ln.data) &&
  decide (stripL ln.data = ln.data) && (is_heading ln).isNone

/-- One step of the normalized-form checker.  The state is (a chapter
marker has occurred, last verse number in the current chapter);
accepted lines are exactly canonical chapter markers and canonical
bare verse lines that keep the normalizer from opening an implicit or
inferred chapter: a verse line needs an open chapter and must not reset
to verse 1 while the previous verse number exceeds 1. -/
def normLineStep (st : Bool × Option Nat) (ln : String) : Option (Bool × Option Nat) :=
  if normLineBasic ln then
    match matchChapterHeading ln.data with
    | some n => if ln = chapterLineOf n then some (true, none) else none
    | none =>
      if (matchVerseColon ln.data).isSome then none
      else
        match matchVerseSimple ln.data with
        | some p =>
          if st.1 = true ∧ ln = verseLineOf p.1 ⟨stripL p.2⟩ ∧ ¬(p.1 = 1 ∧ 1 < st.2.getD 0) then
            some (true, some p.1)
          else none
        | none => none
  else none

/-- Run the normalized-form checker over a line sequence. -/
def normFold : List String → (Bool × Option Nat) → Bool
  | [], _ => true
  | ln :: rest, st =>
    match normLineStep st ln with
    | some st2 => normFold rest st2
    | none => false

/-- A line sequence in normalized form (see `normLineStep`). -/
def normalizedForm (out : List String) : Bool := normFold out (false, none)

/-- A produced book, as used in the upload examples. -/
def demoBookG : BookJSON := ⟨"Genesis", 1, [⟨1, [⟨1, "In the beginning"⟩]⟩]⟩

/-- A second produced book for the upload examples. -/
def demoBookE : BookJSON := ⟨"Exodus", 2, [⟨1, [⟨1, "Now these are the names"⟩]⟩]⟩

/-- A post function raising a network error for the first book only
(the HTTP call itself fails, as `requests.post` does on a connection
error). -/
def demoFailingPost : String → List (String × String) → UploadPayload → Except String HttpResponse :=
  fun _ _ p => if p.title = "Genesis" then Except.error "ConnectionError" else Except.ok ⟨200, "ok"⟩

/-- A post function that always returns a response, with a failure
status for the first book. -/
def demoStatusPost : String → List (String × String) → UploadPayload → Except String HttpResponse :=
  fun _ _ p => Except.ok ⟨if p.title = "Genesis" then 500 else 201, "r"⟩

/-! ## Theorems settling the claims -/

/-- C1: the heading line "THE REVELATION OF ST. JOHN THE DIVINE" is NOT
resolved to "Revelation" by the Heading Detector: the alias scan walks
the alias table in canon order and the Gospel alias "JOHN" matches as a
substring of the uppercased line before "Revelation" is reached, so
`is_heading` returns "John".  This contradicts the claim (and the
intent visible in the source: the full aliases "REVELATION OF ST. JOHN
[THE DIVINE]" are registered for "Revelation" precisely for this
heading, but are unreachable). -/
theorem C1_revelation_heading_resolves_to_john :
    is_heading "THE REVELATION OF ST. JOHN THE DIVINE" = some "John" ∧
    is_heading "THE REVELATION OF ST. JOHN THE DIVINE" ≠ some "Revelation" := by
  constructor
  · rfl
  · decide

/-- C2: a verse line whose two-digit book number is outside the canon
range 1..66 is NOT silently dropped.  Book numbers 67..99 make
`BOOKS[book_num - 1]` raise `IndexError`, aborting the parse, in both
the export parser and the split parser; book number 00 resolves through
Python negative indexing to `BOOKS[-1]` = "Revelation" and the verse is
placed there; and with a book already open the split parser places such
a verse in the currently open book. -/
theorem C2_out_of_range_book_not_dropped :
    parse_master_numbered ["67:001:001 Lost verse"] = Except.error "IndexError" ∧
    parse_numbered_format ["67:001:001 Lost verse"] = Except.error "IndexError" ∧
    (parse_master_numbered ["00:001:001 Wrapped verse"]).map (fun r => r.get? 65) =
      Except.ok (some ⟨"Revelation", 66, [⟨1, [⟨1, "Wrapped verse"⟩]⟩]⟩) ∧
    (parse_numbered_format ["BOOK 01 Genesis", "67:001:001 Strayed verse"]).map
        (fun d => dictGetD d "Genesis") =
      Except.ok ["Chapter 1", "1 Strayed verse"] := by
  refine ⟨rfl, rfl, rfl, rfl⟩

/-- C4: the export-script Format Detector returns true iff the
numbered-verse count exceeds 200 AND the BOOK-heading count exceeds 30;
and the concrete input with 5 numbered-verse lines and 2 BOOK headings
is rejected by both detector implementations (heading pipeline
selected). -/
theorem C4_detector_thresholds :
    (∀ lines, detect_numbered_format lines = true ↔
      (200 < countNumVerse lines ∧ 30 < countBookHeadings lines)) ∧
    countNumVerse demoDetectLines = 5 ∧
    countBookHeadings demoDetectLines = 2 ∧
    detect_numbered_format demoDetectLines = false ∧
    detectNumberedSplit demoDetectLines = false := by
  refine ⟨fun lines => ?_, rfl, rfl, rfl, rfl⟩
  simp [detect_numbered_format]

/-- The split-script detector with running counters equals the
threshold comparison over the total counts plus the running start,
provided the line list is nonempty (the in-loop check fires only after
at least one line). -/
theorem detectAux_eq_counts (lines : List String) : ∀ v b,
    detectNumberedSplitAux lines v b = true ↔
      (lines ≠ [] ∧ 200 < v + countNumVerse lines ∧ 30 < b + countBookHeadings lines) := by
  induction lines with
  | nil => intro v b; simp [detectNumberedSplitAux]
  | cons ln rest ih =>
    intro v b
    simp only [detectNumberedSplitAux, countNumVerse, countBookHeadings, List.countP_cons]
    by_cases h1 : 200 < (if (matchNumVerse ln.data).isSome then v + 1 else v) ∧
        30 < (if (matchBookHeading ln.data).isSome then b + 1 else b)
    · simp only [if_pos h1]
      simp only [countNumVerse, countBookHeadings] at *
      constructor
      · intro _
        refine ⟨by simp, ?_, ?_⟩ <;>
          rcases h1 with ⟨hv, hb⟩ <;> split_ifs at hv hb ⊢ <;> omega
      · intro _; trivial
    · simp only [if_neg h1, ih]
      simp only [countNumVerse, countBookHeadings] at *
      constructor
      · rintro ⟨_, hv, hb⟩
        refine ⟨by simp, ?_, ?_⟩ <;> split_ifs at hv hb ⊢ <;> omega
      · rintro ⟨_, hv, hb⟩
        rcases Decidable.em (rest = []) with hr | hr
        · exfalso
          subst hr
          simp only [List.countP_nil] at hv hb
          exact h1 ⟨by split_ifs at hv ⊢ <;> omega, by split_ifs at hb ⊢ <;> omega⟩
        · refine ⟨hr, ?_, ?_⟩ <;> split_ifs at hv hb ⊢ <;> omega

/-- C9: the two Format Detector implementations agree on every input:
the short-circuiting scan of the split script returns the same boolean
as the full-count comparison of the export script. -/
theorem C9_detectors_equivalent :
    ∀ lines, detectNumberedSplit lines = detect_numbered_format lines := by
  intro lines
  have h := detectAux_eq_counts lines 0 0
  simp only [Nat.zero_add] at h
  apply Bool.coe_iff_coe.mp
  rw [detectNumberedSplit, h, detect_numbered_format]
  simp only [Bool.and_eq_true, decide_eq_true_eq]
  constructor
  · rintro ⟨_, hv, hb⟩
    exact ⟨hv, hb⟩
  · rintro ⟨hv, hb⟩
    refine ⟨?_, hv, hb⟩
    intro hnil
    subst hnil
    simp [countNumVerse] at hv

/-- Binding an `Except.ok` value reduces to the continuation. -/
theorem exceptBind_ok {ε α β : Type} (a : α) (f : α → Except ε β) :
    (Except.ok a >>= f) = f a := rfl

/-- Binding a pure `Except` value reduces to the continuation. -/
theorem exceptPureBind {ε α β : Type} (a : α) (f : α → Except ε β) :
    ((pure a : Except ε α) >>= f) = f a := rfl

/-- Evaluation of one normalizer iteration on a line that reaches the
bare-verse rule: the chapter bookkeeping happens exactly as in rule 4,
then the verse is appended. -/
theorem cleanStep_bareVerse (s : CleanState) (ln : String) (v : Nat) (t : String)
    (hbv : bareVerseLine ln = some (v, t)) :
    cleanStep s ln =
      (let s1 :=
        if s.currentChapter = none then startChapter s 1
        else if v = 1 ∧ 1 < s.lastVerseInChapter.getD 0 then
          startChapter s (s.currentChapter.getD 0 + 1)
        else s
      { s1 with normalized := s1.normalized ++ [toString v ++ " " ++ t],
                lastVerseInChapter := some v }) := by
  simp only [bareVerseLine] at hbv
  split_ifs at hbv with h0 h1 h2
  · obtain ⟨⟨a, b⟩, hmv, heq⟩ := Option.map_eq_some'.mp hbv
    obtain ⟨hv, ht⟩ : a = v ∧ (⟨stripL b⟩ : String) = t := by simpa using heq
    subst hv
    subst ht
    have hch : matchChapterHeading (stripS ln).data = none :=
      Option.not_isSome_iff_eq_none.mp h1
    have hcol : matchVerseColon (stripS ln).data = none :=
      Option.not_isSome_iff_eq_none.mp h2
    simp only [cleanStep, if_neg h0, hch, hcol, hmv]

/-- C5: in the Chapter/Verse Normalizer, a bare verse line `v text`
opens chapter 1 when no chapter is open; opens chapter current+1 when
the previous verse number in the chapter was > 1 and v = 1; then the
verse is appended.  Concretely, `1 A`, `2 B`, `1 C` normalize to
Chapter 1 (verses 1, 2) then Chapter 2 (verse 1). -/
theorem C5_bare_verse_chapter_logic :
    (∀ (s : CleanState) (ln : String) (v : Nat) (t : String),
      bareVerseLine ln = some (v, t) → s.currentChapter = none →
      cleanStep s ln =
        { normalized := s.normalized ++ ["Chapter " ++ toString 1, toString v ++ " " ++ t],
          currentChapter := some 1, lastVerseInChapter := some v }) ∧
    (∀ (s : CleanState) (ln : String) (t : String) (c w : Nat),
      bareVerseLine ln = some (1, t) → s.currentChapter = some c →
      s.lastVerseInChapter = some w → 1 < w →
      cleanStep s ln =
        { normalized := s.normalized ++ ["Chapter " ++ toString (c + 1), toString 1 ++ " " ++ t],
          currentChapter := some (c + 1), lastVerseInChapter := some 1 }) ∧
    clean_book_lines "Genesis" ["1 A", "2 B", "1 C"] =
      ["Chapter 1", "1 A", "2 B", "Chapter 2", "1 C"] := by
  refine ⟨?_, ?_, by rfl⟩
  · intro s ln v t hbv hcc
    rw [cleanStep_bareVerse s ln v t hbv]
    simp [hcc, startChapter]
  · intro s ln t c w hbv hcc hlast hw
    rw [cleanStep_bareVerse s ln 1 t hbv]
    simp only [hcc, hlast, startChapter]
    simp [hw]

/-- C5 witness: the two chapter-opening rules applied at concrete
states and lines. -/
theorem C5_witness :
    cleanStep ⟨[], none, none⟩ "1 A" = ⟨["Chapter 1", "1 A"], some 1, some 1⟩ ∧
    cleanStep ⟨["Chapter 1", "1 A", "2 B"], some 1, some 2⟩ "1 C" =
      ⟨["Chapter 1", "1 A", "2 B", "Chapter 2", "1 C"], some 2, some 1⟩ := by
  constructor
  · exact C5_bare_verse_chapter_logic.1 ⟨[], none, none⟩ "1 A" 1 "A" (by rfl) rfl
  · exact C5_bare_verse_chapter_logic.2.1 ⟨["Chapter 1", "1 A", "2 B"], some 1, some 2⟩
      "1 C" "C" 1 2 (by rfl) rfl rfl (by omega)

/-- C7: a continuation line (matching no chapter or verse pattern)
following a verse line is appended to the last verse's text with a
single joining space — stated for one loop iteration of
`parse_book_txt`, and concretely for both parsing paths on the
spec's example. -/
theorem C7_continuation_merging :
    (∀ (s : PBState) (ln : String), s.lastVerse = true →
      stripL ln.data ≠ [] →
      matchChapterRe (stripL ln.data) = none →
      matchVerseSimple (stripL ln.data) = none →
      pbStep s ln = { s with chapters := appendToLastVerseText (stripS ln) s.chapters }) ∧
    parse_book_txt "Genesis"
        ["Chapter 1", "1 In the beginning God created", "the heaven and the earth."] =
      ⟨"Genesis", 1, [⟨1, [⟨1, "In the beginning God created the heaven and the earth."⟩]⟩]⟩ ∧
    (parse_master_numbered ["BOOK 01 Genesis", "01:001:001 In the beginning God created",
        "the heaven and the earth."]).map (fun r => r.get? 0) =
      Except.ok (some ⟨"Genesis", 1,
        [⟨1, [⟨1, "In the beginning God created the heaven and the earth."⟩]⟩]⟩) := by
  refine ⟨?_, by rfl, by rfl⟩
  intro s ln hlv hne hch hmv
  have h0 : ¬ (stripS ln).data = [] := hne
  have hch2 : matchChapterRe (stripS ln).data = none := hch
  have hmv2 : matchVerseSimple (stripS ln).data = none := hmv
  simp [pbStep, if_neg h0, hch2, hmv2, pbCont, hlv]

/-- C7 witness: the continuation rule applied at a concrete state and
line. -/
theorem C7_witness :
    pbStep ⟨[⟨1, [⟨1, "In the beginning God created"⟩]⟩], true, true⟩
        "the heaven and the earth." =
      ⟨[⟨1, [⟨1, "In the beginning God created the heaven and the earth."⟩]⟩], true, true⟩ := by
  have h := C7_continuation_merging.1
    ⟨[⟨1, [⟨1, "In the beginning God created"⟩]⟩], true, true⟩
    "the heaven and the earth." rfl (by decide) (by rfl) (by rfl)
  exact h.trans (by rfl)

/-- A line that is not a chapter heading leaves the initial (empty, no
chapter, no verse) `parse_book_txt` state unchanged. -/
theorem pbStep_init_fixed (ln : String)
    (hch : matchChapterRe (stripL ln.data) = none) :
    pbStep ⟨[], false, false⟩ ln = ⟨[], false, false⟩ := by
  have hch2 : matchChapterRe (stripS ln).data = none := hch
  by_cases h0 : (stripS ln).data = []
  · simp only [pbStep, if_pos h0]
  · simp only [pbStep, if_neg h0, hch2]
    cases hmv : matchVerseSimple (stripS ln).data with
    | none => simp [pbCont]
    | some p => simp [pbCont]

/-- C10: in `parse_book_txt`, a verse-pattern line occurring before any
`Chapter N` marker is never emitted as a verse: it takes the
continuation branch (appending to the previous verse when one exists,
silently discarded otherwise); and a file with no chapter markers at
all parses to a book with an empty chapters list. -/
theorem C10_verse_lines_before_chapter :
    (∀ stem lines, (∀ ln ∈ lines, matchChapterRe (stripL ln.data) = none) →
      (parse_book_txt stem lines).chapters = []) ∧
    (∀ (s : PBState) (ln : String) (v : Nat) (t : List Char),
      matchChapterRe (stripL ln.data) = none →
      matchVerseSimple (stripL ln.data) = some (v, t) →
      s.hasCurrent = false →
      pbStep s ln = pbCont s (stripS ln)) := by
  constructor
  · intro stem lines hall
    have hfold : ∀ ls : List String, (∀ ln ∈ ls, matchChapterRe (stripL ln.data) = none) →
        ls.foldl pbStep ⟨[], false, false⟩ = ⟨[], false, false⟩ := by
      intro ls
      induction ls with
      | nil => intro _; rfl
      | cons a as ih =>
        intro h
        have ha := h a (List.mem_cons_self a as)
        have has : ∀ ln ∈ as, matchChapterRe (stripL ln.data) = none :=
          fun ln hln => h ln (List.mem_cons_of_mem a hln)
        simp only [List.foldl_cons, pbStep_init_fixed a ha]
        exact ih has
    simp only [parse_book_txt, hfold lines hall]
  · intro s ln v t hch hmv hcur
    have hch2 : matchChapterRe (stripS ln).data = none := hch
    have hmv2 : matchVerseSimple (stripS ln).data = some (v, t) := hmv
    have h0 : ¬ (stripS ln).data = [] := by
      intro h
      rw [h] at hmv2
      simp [matchVerseSimple, spanDigits] at hmv2
    simp only [pbStep, if_neg h0, hch2, hmv2, hcur]
    simp

/-- C10 witness: a two-line file of verse-pattern lines with no chapter
marker yields no chapters, and the first such line is routed to the
continuation branch. -/
theorem C10_witness :
    (parse_book_txt "Genesis" ["1 In the beginning", "2 And the earth"]).chapters = [] ∧
    pbStep ⟨[], false, false⟩ "1 In the beginning" =
      pbCont ⟨[], false, false⟩ (stripS "1 In the beginning") := by
  constructor
  · exact C10_verse_lines_before_chapter.1 "Genesis" ["1 In the beginning", "2 And the earth"]
      (by intro ln hln; fin_cases hln <;> rfl)
  · exact C10_verse_lines_before_chapter.2 ⟨[], false, false⟩ "1 In the beginning"
      1 "In the beginning".data (by rfl) (by rfl) rfl

/-- The upload loop with an error-free post function reports every book
and never aborts (generalized over the accumulated reports). -/
theorem uploadAll_go (post : String → List (String × String) → UploadPayload → Except String HttpResponse)
    (api_url pw tradition src work : String)
    (hpost : ∀ p, (post api_url (uploadHeaders pw) p).isOk = true) :
    ∀ (books : List BookJSON) (acc : List String),
      books.foldlM (fun logs b => do
          let l ← upload_book post b api_url pw tradition src work
          return logs ++ [l]) acc =
        Except.ok (acc ++ books.map (logOfPost post api_url pw tradition src work)) := by
  intro books
  induction books with
  | nil =>
    intro acc
    simp only [List.foldlM_nil, List.map_nil, List.append_nil]
    rfl
  | cons b bs ih =>
    intro acc
    cases hp : post api_url (uploadHeaders pw) (buildPayload b tradition src work) with
    | error e =>
      exact absurd (hpost (buildPayload b tradition src work)) (by simp [hp, Except.isOk, Except.toBool])
    | ok r =>
      have hub : upload_book post b api_url pw tradition src work =
          Except.ok (logOfPost post api_url pw tradition src work b) := by
        simp only [upload_book, logOfPost, hp, exceptBind_ok]
        split_ifs with hs <;> rfl
      simp only [List.foldlM_cons, hub, exceptBind_ok, exceptPureBind]
      rw [ih (acc ++ [logOfPost post api_url pw tradition src work b])]
      simp

/-- C3: amended — per-book upload FAILURE STATUSES (≥ 300) are
non-fatal: when the HTTP call itself never raises, every book in the
batch is processed and reported individually, failed or not.  (The
unamended claim is refuted by `C3_counterexample`: a raised network
error propagates and aborts the remaining books.) -/
theorem C3_status_failures_nonfatal
    (post : String → List (String × String) → UploadPayload → Except String HttpResponse)
    (books : List BookJSON) (api_url pw tradition src work : String)
    (hpost : ∀ p, (post api_url (uploadHeaders pw) p).isOk = true) :
    uploadAll post books api_url pw tradition src work =
      Except.ok (books.map (logOfPost post api_url pw tradition src work)) := by
  have h := uploadAll_go post api_url pw tradition src work hpost books []
  simpa [uploadAll] using h

/-- C3 witness: with a post that always answers (status 500 for the
first book), both books are reported and the batch succeeds. -/
theorem C3_witness :
    uploadAll demoStatusPost [demoBookG, demoBookE] "u" "pw" "KJV" "KJV Source" "Holy Bible" =
      Except.ok ["Upload failed Genesis: 500 r", "Uploaded Exodus: 201"] := by
  have h := C3_status_failures_nonfatal demoStatusPost [demoBookG, demoBookE]
    "u" "pw" "KJV" "KJV Source" "Holy Bible" (fun _ => rfl)
  exact h.trans (by rfl)

/-- C3 counterexample: a network error raised by the HTTP call for the
first book aborts the whole batch — the error propagates out of the
loop and the second book (which would have uploaded fine) is never
processed. -/
theorem C3_counterexample :
    uploadAll demoFailingPost [demoBookG, demoBookE] "u" "pw" "KJV" "KJV Source" "Holy Bible" =
      Except.error "ConnectionError" ∧
    upload_book demoFailingPost demoBookE "u" "pw" "KJV" "KJV Source" "Holy Bible" =
      Except.ok "Uploaded Exodus: 200" := by
  exact ⟨rfl, rfl⟩

/-- Binding a raised `Except.error` short-circuits. -/
theorem exceptBindErr {ε α β : Type} (e : ε) (f : α → Except ε β) :
    (Except.error e >>= f : Except ε β) = Except.error e := rfl

/-- Mapping over a pointwise update is invisible to a key function the
update preserves. -/
theorem map_updAt {α β : Type} (g : α → β) (f : α → α) (hf : ∀ x, g (f x) = g x) :
    ∀ (i : Nat) (l : List α), (updAt f i l).map g = l.map g := by
  intro i l
  induction l generalizing i with
  | nil => cases i <;> rfl
  | cons a rest ih =>
    cases i with
    | zero => simp [updAt, hf]
    | succ j => simp [updAt, ih]

/-- A pointwise update does not change other positions. -/
theorem updAt_get?_ne {α : Type} (f : α → α) {i j : Nat} (hne : i ≠ j) :
    ∀ l : List α, (updAt f j l).get? i = l.get? i := by
  intro l
  induction l generalizing i j with
  | nil => cases j <;> rfl
  | cons a rest ih =>
    cases j with
    | zero => cases i with
      | zero => exact absurd rfl hne
      | succ i2 => rfl
    | succ j2 => cases i with
      | zero => rfl
      | succ i2 => simpa [updAt] using ih (fun h => hne (by omega))

/-- A pointwise update maps the targeted position. -/
theorem updAt_get?_self {α : Type} (f : α → α) :
    ∀ (j : Nat) (l : List α), (updAt f j l).get? j = (l.get? j).map f := by
  intro j l
  induction l generalizing j with
  | nil => cases j <;> rfl
  | cons a rest ih =>
    cases j with
    | zero => rfl
    | succ j2 => simpa [updAt] using ih j2

/-- One `parse_master_numbered` iteration never changes any book's name
or order. -/
theorem pmStep_books_key (s : PMState) (ln0 : String) (s2 : PMState)
    (h : pmStep s ln0 = Except.ok s2) : s2.books.map bkey = s.books.map bkey := by
  simp only [pmStep] at h
  by_cases hblank : stripL (rstripS ln0).data = []
  · rw [if_pos hblank] at h
    injection h with h2
    subst h2
    rfl
  · rw [if_neg hblank] at h
    rcases hmb : matchBookHeading (stripL (rstripS ln0).data) with _ | ⟨num, namePart⟩
    · simp only [hmb] at h
      rcases hmv : matchNumVerse (rstripS ln0).data with _ | ⟨bookNum, chapter, verse, textRaw⟩
      · simp only [hmv] at h
        cases hlv : s.lastVerse
        · simp only [hlv, if_neg] at h
          injection h with h2
          subst h2
          rfl
        · simp only [hlv, if_pos] at h
          rcases hcb : s.currentBook with _ | i
          · simp only [hcb] at h
            injection h with h2
            subst h2
            rfl
          · simp only [hcb] at h
            injection h with h2
            subst h2
            exact map_updAt bkey (appendContText ⟨stripL (rstripS ln0).data⟩) (fun x => rfl) i s.books
      · simp only [hmv] at h
        rcases hidx : pyIdx ((bookNum : Int) - 1) BOOKS.length with e | idx
        · rw [hidx, exceptBindErr] at h
          exact Except.noConfusion h
        · rw [hidx, exceptBind_ok] at h
          by_cases hc1 : s.currentBook = some idx
          · rw [if_neg (show ¬(s.currentBook ≠ some idx) from fun hne => hne hc1)] at h
            by_cases hc2 : s.currentChap = some chapter
            · rw [if_neg (show ¬(s.currentChap ≠ some chapter) from fun hne => hne hc2)] at h
              injection h with h2
              subst h2
              dsimp only
              rw [map_updAt bkey (appendVerseToLast verse ⟨stripL textRaw⟩) (fun x => rfl) idx]
            · rw [if_pos (show s.currentChap ≠ some chapter from hc2)] at h
              injection h with h2
              subst h2
              dsimp only
              rw [map_updAt bkey (appendVerseToLast verse ⟨stripL textRaw⟩) (fun x => rfl) idx,
                map_updAt bkey (appendEmptyChapter chapter) (fun x => rfl) idx]
          · rw [if_pos (show s.currentBook ≠ some idx from hc1)] at h
            dsimp only at h
            rw [if_pos (show (none : Option Nat) ≠ some chapter from fun hx => Option.noConfusion hx)] at h
            injection h with h2
            subst h2
            dsimp only
            rw [map_updAt bkey (appendVerseToLast verse ⟨stripL textRaw⟩) (fun x => rfl) idx,
              map_updAt bkey (appendEmptyChapter chapter) (fun x => rfl) idx]
    · simp only [hmb] at h
      injection h with h2
      subst h2
      rfl

/-- One `parse_master_numbered` iteration keeps the chapter list of a
book empty unless the line is a verse line resolving to that book:
headings touch no book, continuations cannot add a chapter to an empty
book (the last-chapter update is vacuous on an empty list), and verse
lines only touch the book their book-number field resolves to. -/
theorem pmStep_absent (i : Nat) (s : PMState) (ln0 : String) (s2 : PMState)
    (h : pmStep s ln0 = Except.ok s2) (hm : mentionsIdx i ln0 = false)
    (hc : chaptersAt s.books i = some []) : chaptersAt s2.books i = some [] := by
  simp only [pmStep] at h
  by_cases hblank : stripL (rstripS ln0).data = []
  · rw [if_pos hblank] at h
    injection h with h2
    subst h2
    exact hc
  · rw [if_neg hblank] at h
    rcases hmb : matchBookHeading (stripL (rstripS ln0).data) with _ | ⟨num, namePart⟩
    · simp only [hmb] at h
      rcases hmv : matchNumVerse (rstripS ln0).data with _ | ⟨bookNum, chapter, verse, textRaw⟩
      · simp only [hmv] at h
        cases hlv : s.lastVerse
        · simp only [hlv, if_neg] at h
          injection h with h2
          subst h2
          exact hc
        · simp only [hlv, if_pos] at h
          rcases hcb : s.currentBook with _ | j
          · simp only [hcb] at h
            injection h with h2
            subst h2
            exact hc
          · simp only [hcb] at h
            injection h with h2
            subst h2
            dsimp only [chaptersAt] at hc ⊢
            by_cases hij : i = j
            · subst hij
              rw [updAt_get?_self]
              obtain ⟨b0, hb0, hcb0⟩ := Option.map_eq_some'.mp hc
              rw [hb0]
              simp only [Option.map_some', appendContText, appendToLastVerseText, hcb0]
              rfl
            · rw [updAt_get?_ne _ hij]
              exact hc
      · simp only [hmv] at h
        rcases hidx : pyIdx ((bookNum : Int) - 1) BOOKS.length with e | idx
        · rw [hidx, exceptBindErr] at h
          exact Except.noConfusion h
        · rw [hidx, exceptBind_ok] at h
          have hmv2 : matchNumVerse (rstripL ln0.data) = some (bookNum, chapter, verse, textRaw) := hmv
          have hidx2 : pyIdx ((bookNum : Int) - 1) BOOKS.length = Except.ok idx := hidx
          have hni : i ≠ idx := by
            intro hii
            subst hii
            rw [mentionsIdx, hmv2] at hm
            simp only [hidx2] at hm
            simp at hm
          have step2 : ∀ bs : List BookJSON, chaptersAt bs i = some [] →
              chaptersAt (updAt (appendVerseToLast verse ⟨stripL textRaw⟩) idx bs) i = some [] := by
            intro bs hbs
            dsimp only [chaptersAt] at hbs ⊢
            rw [updAt_get?_ne _ hni]
            exact hbs
          have step1 : ∀ bs : List BookJSON, chaptersAt bs i = some [] →
              chaptersAt (updAt (appendEmptyChapter chapter) idx bs) i = some [] := by
            intro bs hbs
            dsimp only [chaptersAt] at hbs ⊢
            rw [updAt_get?_ne _ hni]
            exact hbs
          by_cases hc1 : s.currentBook = some idx
          · rw [if_neg (show ¬(s.currentBook ≠ some idx) from fun hne => hne hc1)] at h
            by_cases hc2 : s.currentChap = some chapter
            · rw [if_neg (show ¬(s.currentChap ≠ some chapter) from fun hne => hne hc2)] at h
              injection h with h2
              subst h2
              exact step2 s.books hc
            · rw [if_pos (show s.currentChap ≠ some chapter from hc2)] at h
              injection h with h2
              subst h2
              exact step2 _ (step1 s.books hc)
          · rw [if_pos (show s.currentBook ≠ some idx from hc1)] at h
            dsimp only at h
            rw [if_pos (show (none : Option Nat) ≠ some chapter from fun hx => Option.noConfusion hx)] at h
            injection h with h2
            subst h2
            exact step2 _ (step1 s.books hc)
    · simp only [hmb] at h
      injection h with h2
      subst h2
      exact hc

/-- Folding `pmStep` never changes any book's name or order. -/
theorem pmFold_books_key : ∀ (lines : List String) (s s2 : PMState),
    lines.foldlM pmStep s = Except.ok s2 → s2.books.map bkey = s.books.map bkey := by
  intro lines
  induction lines with
  | nil =>
    intro s s2 h
    rw [List.foldlM_nil] at h
    injection h with h2
    subst h2
    rfl
  | cons a rest ih =>
    intro s s2 h
    rw [List.foldlM_cons] at h
    cases hsa : pmStep s a with
    | error e =>
      rw [hsa, exceptBindErr] at h
      exact Except.noConfusion h
    | ok s1 =>
      rw [hsa, exceptBind_ok] at h
      exact (ih s1 s2 h).trans (pmStep_books_key s a s1 hsa)

/-- Folding `pmStep` over lines none of which places a verse in book
`i` keeps book `i`'s chapter list empty. -/
theorem pmFold_absent (i : Nat) : ∀ (lines : List String) (s s2 : PMState),
    lines.foldlM pmStep s = Except.ok s2 →
    (∀ ln ∈ lines, mentionsIdx i ln = false) →
    chaptersAt s.books i = some [] → chaptersAt s2.books i = some [] := by
  intro lines
  induction lines with
  | nil =>
    intro s s2 h _ hc
    rw [List.foldlM_nil] at h
    injection h with h2
    subst h2
    exact hc
  | cons a rest ih =>
    intro s s2 h hall hc
    rw [List.foldlM_cons] at h
    cases hsa : pmStep s a with
    | error e =>
      rw [hsa, exceptBindErr] at h
      exact Except.noConfusion h
    | ok s1 =>
      rw [hsa, exceptBind_ok] at h
      have hstep := pmStep_absent i s a s1 hsa (hall a (List.mem_cons_self a rest)) hc
      exact ih s1 s2 h (fun ln hln => hall ln (List.mem_cons_of_mem a hln)) hstep

/-- The initial books list entry at `i`: the canon name at `i`, order
`i + 1`, no chapters. -/
theorem initBooks_get? (i : Nat) :
    initBooks.get? i = (BOOKS.get? i).map (fun p => ({ book := p, order := i + 1, chapters := [] } : BookJSON)) := by
  rw [initBooks, List.get?_map, List.get?_enum]
  cases BOOKS.get? i <;> rfl

/-- C6: for every input accepted by `parse_master_numbered`, the result
has one entry per canon position with `order` = 1-based position and
the canonical name; books no verse line resolves to keep an empty
chapters list; and every chapter in the result holds at least one verse
(empty chapters are dropped by the final trim). -/
theorem C6_parse_master_invariants :
    ∀ (lines : List String) (result : List BookJSON),
      parse_master_numbered lines = Except.ok result →
      result.length = 66 ∧
      (∀ i b, result.get? i = some b → BOOKS.get? i = some b.book ∧ b.order = i + 1) ∧
      (∀ i b, result.get? i = some b → (∀ ln ∈ lines, mentionsIdx i ln = false) →
        b.chapters = []) ∧
      (∀ b ∈ result, ∀ c ∈ b.chapters, c.verses ≠ []) := by
  intro lines result h
  rw [parse_master_numbered] at h
  cases hs : lines.foldlM pmStep
      { books := initBooks, currentBook := none, currentChap := none, lastVerse := false } with
  | error e =>
    rw [hs, exceptBindErr] at h
    exact Except.noConfusion h
  | ok s =>
    rw [hs, exceptBind_ok] at h
    injection h with h2
    subst h2
    have hkey : s.books.map bkey = initBooks.map bkey :=
      pmFold_books_key lines _ s hs
    have hlen : s.books.length = 66 := by
      have h1 : (s.books.map bkey).length = (initBooks.map bkey).length := by rw [hkey]
      simpa using h1.trans (by rw [List.length_map]; rfl)
    refine ⟨by simpa using hlen, ?_, ?_, ?_⟩
    · intro i b hb
      rw [List.get?_map] at hb
      obtain ⟨b0, hb0, hbeq⟩ := Option.map_eq_some'.mp hb
      have hk : (s.books.get? i).map bkey = (initBooks.get? i).map bkey := by
        rw [← List.get?_map, ← List.get?_map, hkey]
      rw [hb0, initBooks_get?] at hk
      cases hB : BOOKS.get? i with
      | none => rw [hB] at hk; exact absurd hk (by simp)
      | some name =>
        rw [hB] at hk
        simp only [Option.map_some'] at hk
        have hbk : b0.book = name ∧ b0.order = i + 1 := by
          simpa [bkey, Prod.ext_iff] using hk
        subst hbeq
        constructor
        · dsimp only
          rw [hbk.1]
        · dsimp only
          exact hbk.2
    · intro i b hb hall
      rw [List.get?_map] at hb
      obtain ⟨b0, hb0, hbeq⟩ := Option.map_eq_some'.mp hb
      have hi66 : i < 66 := by
        by_contra hge
        rw [List.get?_eq_none.mpr (by omega : s.books.length ≤ i)] at hb0
        exact Option.noConfusion hb0
      have hinit : chaptersAt initBooks i = some [] := by
        dsimp only [chaptersAt]
        rw [initBooks_get?]
        cases hB : BOOKS.get? i with
        | none =>
          exfalso
          have : BOOKS.length ≤ i := List.get?_eq_none.mp hB
          revert this
          simp only [show BOOKS.length = 66 from rfl]
          omega
        | some name => rfl
      have habs := pmFold_absent i lines _ s hs hall hinit
      dsimp only [chaptersAt] at habs
      rw [hb0] at habs
      simp only [Option.map_some'] at habs
      have hch : b0.chapters = [] := by
        injection habs
      subst hbeq
      simp [hch]
    · intro b hb c hc
      obtain ⟨b0, _, hbeq⟩ := List.mem_map.mp hb
      subst hbeq
      simp only at hc
      have := List.of_mem_filter hc
      intro hnil
      rw [hnil] at this
      simp at this

/-- C6 witness: on a two-line numbered input the parse succeeds, the
result has 66 entries, Exodus (untouched by the input) sits at canon
position 2 with no chapters, and every chapter present holds a verse. -/
theorem C6_witness :
    parse_master_numbered demoNumLines = Except.ok demoNumResult ∧
    demoNumResult.length = 66 ∧
    (∃ b, demoNumResult.get? 1 = some b ∧ b.book = "Exodus" ∧ b.chapters = []) ∧
    (∀ b ∈ demoNumResult, ∀ c ∈ b.chapters, c.verses ≠ []) := by
  have hok : parse_master_numbered demoNumLines = Except.ok demoNumResult := by rfl
  have h := C6_parse_master_invariants demoNumLines demoNumResult hok
  obtain ⟨b, hb⟩ : ∃ b, demoNumResult.get? 1 = some b := ⟨_, rfl⟩
  refine ⟨hok, h.1, ⟨b, hb, ?_, h.2.2.1 1 b hb (by decide)⟩, h.2.2.2⟩
  have hbook := (h.2.1 1 b hb).1
  have : BOOKS.get? 1 = some "Exodus" := by rfl
  rw [this] at hbook
  injection hbook with h3
  exact h3.symm

/-- A string is unchanged by stripping when its character list is. -/
theorem stripS_eq_self {ln : String} (h : stripL ln.data = ln.data) : stripS ln = ln := by
  show (⟨stripL ln.data⟩ : String) = ln
  rw [h]

/-- Dropping-while over a list on which the predicate never holds is
the identity. -/
theorem dropWhile_eq_self_of {α : Type} (p : α → Bool) :
    ∀ l : List α, (∀ x ∈ l, p x = false) → l.dropWhile p = l := by
  intro l hl
  cases l with
  | nil => rfl
  | cons a rest =>
    rw [List.dropWhile_cons, hl a (List.mem_cons_self a rest)]
    simp

/-- Mapping a function that fixes every element is the identity. -/
theorem map_eq_self_of {α : Type} (f : α → α) :
    ∀ l : List α, (∀ x ∈ l, f x = x) → l.map f = l := by
  intro l
  induction l with
  | nil => intro _; rfl
  | cons a rest ih =>
    intro hl
    rw [List.map_cons, hl a (List.mem_cons_self a rest),
      ih (fun x hx => hl x (List.mem_cons_of_mem a hx))]

/-- Every line of a checker-accepted sequence satisfies the per-line
sanity conditions. -/
theorem normFold_basic : ∀ (out : List String) (st : Bool × Option Nat),
    normFold out st = true → ∀ ln ∈ out, normLineBasic ln = true := by
  intro out
  induction out with
  | nil => intro st _ ln hln; exact absurd hln (List.not_mem_nil ln)
  | cons a rest ih =>
    intro st h ln hln
    rw [normFold] at h
    cases hstep : normLineStep st a with
    | none => rw [hstep] at h; exact Bool.noConfusion h
    | some st2 =>
      rw [hstep] at h
      rcases List.mem_cons.mp hln with rfl | hmem
      · by_cases hb : normLineBasic ln = true
        · exact hb
        · rw [normLineStep, if_neg hb] at hstep
          exact Option.noConfusion hstep
      · exact ih st2 h ln hmem

/-- A checker-accepted line is processed by one normalizer iteration
into exactly itself, with the checker state tracking the normalizer
state. -/
theorem cleanStep_norm (st st2 : Bool × Option Nat) (ln : String) (s : CleanState)
    (hstep : normLineStep st ln = some st2)
    (hc : st.1 = s.currentChapter.isSome)
    (hl : st.1 = true → st.2 = s.lastVerseInChapter) :
    ∃ s2, cleanStep s ln = s2 ∧ s2.normalized = s.normalized ++ [ln] ∧
      st2.1 = s2.currentChapter.isSome ∧ (st2.1 = true → st2.2 = s2.lastVerseInChapter) := by
  rw [normLineStep] at hstep
  by_cases hb : normLineBasic ln = true
  · rw [if_pos hb] at hstep
    rw [normLineBasic] at hb
    simp only [Bool.and_eq_true, decide_eq_true_eq, Option.isNone_iff_eq_none] at hb
    obtain ⟨⟨⟨hne, _⟩, hsx⟩, _⟩ := hb
    have hraw : stripS ln = ln := stripS_eq_self hsx
    cases hch : matchChapterHeading ln.data with
    | some n =>
      simp only [hch] at hstep
      split_ifs at hstep with hln
      obtain rfl := Option.some.inj hstep
      refine ⟨startChapter s n, ?_, ?_, rfl, fun _ => rfl⟩
      · simp only [cleanStep, hraw, if_neg hne, hch]
      · dsimp only [startChapter]
        rw [hln, chapterLineOf]
    | none =>
      simp only [hch] at hstep
      by_cases hcol : (matchVerseColon ln.data).isSome = true
      · rw [if_pos hcol] at hstep
        exact Option.noConfusion hstep
      · rw [if_neg hcol] at hstep
        have hcol2 : matchVerseColon ln.data = none := Option.not_isSome_iff_eq_none.mp hcol
        cases hmv : matchVerseSimple ln.data with
        | none =>
          simp only [hmv] at hstep
          exact Option.noConfusion hstep
        | some p =>
          simp only [hmv] at hstep
          split_ifs at hstep with hcond
          obtain ⟨hst1, hveq, hinf⟩ := hcond
          obtain rfl := Option.some.inj hstep
          have hcs : s.currentChapter.isSome = true := hc ▸ hst1
          have hcne : ¬ s.currentChapter = none := by
            intro hcc
            rw [hcc] at hcs
            exact Bool.noConfusion hcs
          have hinf2 : ¬(p.1 = 1 ∧ 1 < s.lastVerseInChapter.getD 0) := by
            rw [← hl hst1]
            exact hinf
          refine ⟨{ normalized := s.normalized ++ [ln], currentChapter := s.currentChapter,
                    lastVerseInChapter := some p.1 }, ?_, rfl, hcs.symm, fun _ => rfl⟩
          simp only [cleanStep, hraw, if_neg hne, hch, hcol2, hmv]
          rw [if_neg hcne, if_neg hinf2, hveq, verseLineOf]
  · rw [if_neg hb] at hstep
    exact Option.noConfusion hstep

/-- Folding the normalizer over a checker-accepted sequence appends the
sequence verbatim. -/
theorem cleanFold_id : ∀ (out : List String) (st : Bool × Option Nat) (s : CleanState),
    normFold out st = true →
    st.1 = s.currentChapter.isSome →
    (st.1 = true → st.2 = s.lastVerseInChapter) →
    (out.foldl cleanStep s).normalized = s.normalized ++ out := by
  intro out
  induction out with
  | nil => intro st s _ _ _; simp
  | cons ln rest ih =>
    intro st s hnf hc hl
    rw [normFold] at hnf
    cases hstep : normLineStep st ln with
    | none =>
      rw [hstep] at hnf
      exact Bool.noConfusion hnf
    | some st2 =>
      rw [hstep] at hnf
      obtain ⟨s2, hs2, hnorm2, hc2, hl2⟩ := cleanStep_norm st st2 ln s hstep hc hl
      rw [List.foldl_cons, hs2, ih st2 s2 hnf hc2 hl2, hnorm2]
      simp

/-- C8 (amended): the Chapter/Verse Normalizer is the identity on
sequences already in normalized form — canonical `Chapter n` markers
and canonical `v text` verse lines in which no bare verse resets to 1
after a verse greater than 1 without an intervening chapter marker.
(Unrestricted idempotence is refuted by `C8_not_idempotent`.) -/
theorem C8_normalizer_identity_on_normalized :
    ∀ (book : String) (out : List String), normalizedForm out = true →
      clean_book_lines book out = out := by
  intro book out hnf
  have hbasic := normFold_basic out (false, none) hnf
  have hfilter : out.filter (fun ln => (is_heading ln).isNone) = out := by
    rw [List.filter_eq_self]
    intro a ha
    have hb := hbasic a ha
    rw [normLineBasic] at hb
    simp only [Bool.and_eq_true] at hb
    exact hb.2
  have hmap : out.map rstripS = out := by
    apply map_eq_self_of
    intro x hx
    have hb := hbasic x hx
    rw [normLineBasic] at hb
    simp only [Bool.and_eq_true, decide_eq_true_eq] at hb
    show (⟨rstripL x.data⟩ : String) = x
    rw [hb.1.1.2]
  have hnb : ∀ x ∈ out, (decide (stripL x.data = [])) = false := by
    intro x hx
    have hb := hbasic x hx
    rw [normLineBasic] at hb
    simp only [Bool.and_eq_true, decide_eq_true_eq] at hb
    simp only [decide_eq_false_iff_not]
    rw [hb.1.2]
    exact hb.1.1.1
  have htrim1 : out.dropWhile (fun l => decide (stripL l.data = [])) = out :=
    dropWhile_eq_self_of _ out hnb
  have htrim2 : (out.reverse.dropWhile (fun l => decide (stripL l.data = []))).reverse = out := by
    rw [dropWhile_eq_self_of _ out.reverse (fun x hx => hnb x (List.mem_reverse.mp hx))]
    exact List.reverse_reverse out
  rw [clean_book_lines]
  rw [hfilter, hmap, htrim1, htrim2]
  have h := cleanFold_id out (false, none) ⟨[], none, none⟩ hnf rfl (fun hx => Bool.noConfusion hx)
  rw [h]
  rfl

/-- C8 witness: a concrete normalized sequence is accepted by the
checker and returned unchanged by the normalizer. -/
theorem C8_witness :
    normalizedForm ["Chapter 1", "1 A", "2 B", "Chapter 2", "1 C"] = true ∧
    clean_book_lines "Genesis" ["Chapter 1", "1 A", "2 B", "Chapter 2", "1 C"] =
      ["Chapter 1", "1 A", "2 B", "Chapter 2", "1 C"] := by
  have h : normalizedForm ["Chapter 1", "1 A", "2 B", "Chapter 2", "1 C"] = true := by rfl
  exact ⟨h, C8_normalizer_identity_on_normalized "Genesis" _ h⟩

/-- C8 counterexample: the heading pipeline's normalization is NOT
idempotent.  A colon-form verse that repeats the current chapter with
verse number 1 normalizes to a bare `1 text` line; re-normalizing that
output triggers the chapter-reset inference and inserts a spurious
`Chapter 4` marker, so running the Splitter + Normalizer on the
normalized output changes it. -/
theorem C8_not_idempotent :
    split_books ["GENESIS", "3:5 A", "3:1 x"] =
      Except.ok [("Genesis", ["3:5 A", "3:1 x"])] ∧
    clean_book_lines "Genesis" ["3:5 A", "3:1 x"] = ["Chapter 3", "5 A", "1 x"] ∧
    clean_book_lines "Genesis" ["Chapter 3", "5 A", "1 x"] =
      ["Chapter 3", "5 A", "Chapter 4", "1 x"] ∧
    clean_book_lines "Genesis" (clean_book_lines "Genesis" ["3:5 A", "3:1 x"]) ≠
      clean_book_lines "Genesis" ["3:5 A", "3:1 x"] := by
  refine ⟨rfl, rfl, rfl, ?_⟩
  intro heq
  have h1 : clean_book_lines "Genesis" ["3:5 A", "3:1 x"] = ["Chapter 3", "5 A", "1 x"] := rfl
  rw [h1] at heq
  have h2 : clean_book_lines "Genesis" ["Chapter 3", "5 A", "1 x"] =
      ["Chapter 3", "5 A", "Chapter 4", "1 x"] := rfl
  rw [h2] at heq
  exact absurd heq (by simp)

end BibleScripts
